import Mathlib

/-!
Verification of the per-session conversation state manager from
`src/src/index.ts` (the `AgentState` durable object).

The embedding models the durable storage of one session as an
`AgentState` structure holding the two stored records (`messages` and
`analytics`), each `Option`-valued because a key may be absent.  JS
truthiness on optional numeric fields (`!analytics.firstMessageTime`,
`lastUserMessage?.timestamp && message.timestamp`) is modelled exactly:
a value is falsy when the field is absent or equal to `0`.
`averageResponseTime` is a JS number; we model it with exact rational
arithmetic (`ℚ`).  `Date.now()` is modelled as a caller-visible clock
value passed to `addMessage`.
-/

namespace CFWorkers

/-- `Message.role` from `index.ts`. -/
inductive Role where
  | user
  | assistant
  | system
deriving DecidableEq, Repr

/-- The `Message` interface: `role`, `content`, optional `timestamp`. -/
structure Message where
  role : Role
  content : String
  timestamp : Option Nat
deriving DecidableEq, Repr

/-- The `Analytics` interface.  `averageResponseTime` is a JS number,
modelled as an exact rational. -/
structure Analytics where
  totalMessages : Nat
  userMessages : Nat
  assistantMessages : Nat
  averageResponseTime : ℚ
  firstMessageTime : Option Nat
  lastMessageTime : Option Nat
deriving DecidableEq, Repr

/-- The zeroed analytics object literal that `clearMessages` and
`getAnalytics` construct (no optional fields present). -/
def defaultAnalytics : Analytics :=
  { totalMessages := 0
    userMessages := 0
    assistantMessages := 0
    averageResponseTime := 0
    firstMessageTime := none
    lastMessageTime := none }

/-- One session's durable storage: the two stored records, each possibly
absent (a key never written reads back as absent). -/
structure AgentState where
  messagesStored : Option (List Message)
  analyticsStored : Option Analytics
deriving DecidableEq, Repr

/-- A session identifier never accessed before: no key has been written. -/
def initState : AgentState :=
  { messagesStored := none, analyticsStored := none }

/-- `getMessages`: `(await storage.get("messages")) || []`. -/
def getMessages (s : AgentState) : List Message :=
  s.messagesStored.getD []

/-- `getAnalytics`: `(await storage.get("analytics")) || { zeroed }`. -/
def getAnalytics (s : AgentState) : Analytics :=
  s.analyticsStored.getD defaultAnalytics

/-- JS truthiness of an optional numeric field: truthy iff present and
nonzero. -/
def truthyTs : Option Nat → Bool
  | none => false
  | some t => t ≠ 0

/-- The timestamp value read off a message where the source accesses
`message.timestamp` after a truthiness guard. -/
def tsVal (m : Message) : Nat :=
  m.timestamp.getD 0

/-- `updateAnalytics(message)`: called with the state as it stands after
the `messages` put (so `getMessages` already includes `message`), and
the just-appended message (whose timestamp has been filled in). -/
def updateAnalytics (s : AgentState) (message : Message) : AgentState :=
  let analytics := getAnalytics s
  let analytics := { analytics with totalMessages := analytics.totalMessages + 1 }
  let analytics :=
    if message.role = Role.user then
      let analytics := { analytics with
        userMessages := analytics.userMessages + 1
        lastMessageTime := message.timestamp }
      if truthyTs analytics.firstMessageTime then analytics
      else { analytics with firstMessageTime := message.timestamp }
    else if message.role = Role.assistant then
      let analytics := { analytics with
        assistantMessages := analytics.assistantMessages + 1 }
      let messages := getMessages s
      if 2 ≤ messages.length then
        match messages.reverse.find? (fun m => m.role == Role.user) with
        | some lastUserMessage =>
          if truthyTs lastUserMessage.timestamp && truthyTs message.timestamp then
            let responseTime : ℚ := (tsVal message : ℚ) - (tsVal lastUserMessage : ℚ)
            { analytics with averageResponseTime :=
                (analytics.averageResponseTime * ((analytics.assistantMessages : ℚ) - 1)
                  + responseTime) / (analytics.assistantMessages : ℚ) }
          else analytics
        | none => analytics
      else analytics
    else analytics
  { s with analyticsStored := some analytics }

/-- `addMessage(message)`: overwrite the timestamp with the current
clock (`Date.now()` is the `now` argument), push, persist, then update
analytics. -/
def addMessage (s : AgentState) (message : Message) (now : Nat) : AgentState :=
  let message := { message with timestamp := some now }
  let messages := getMessages s ++ [message]
  let s := { s with messagesStored := some messages }
  updateAnalytics s message

/-- `clearMessages()`: store an empty list and the zeroed analytics
object (optional fields absent). -/
def clearMessages (s : AgentState) : AgentState :=
  { s with messagesStored := some ([] : List Message)
           analyticsStored := some defaultAnalytics }

/-- Replay a sequence of `addMessage` calls; each entry carries the
message supplied by the caller and the `Date.now()` value observed at
that append. -/
def runTrace (s : AgentState) : List (Message × Nat) → AgentState
  | [] => s
  | (m, now) :: rest => runTrace (addMessage s m now) rest

/-- The response-time delta recorded by `updateAnalytics` at one append,
if any: it mirrors the guards of the assistant branch (history after the
push has length ≥ 2, a latest user message exists, both timestamps
truthy). -/
def recordedDelta (s : AgentState) (message : Message) (now : Nat) : Option ℚ :=
  let message := { message with timestamp := some now }
  let messages := getMessages s ++ [message]
  if message.role = Role.assistant then
    if 2 ≤ messages.length then
      match messages.reverse.find? (fun m => m.role == Role.user) with
      | some lastUserMessage =>
        if truthyTs lastUserMessage.timestamp && truthyTs message.timestamp then
          some ((tsVal message : ℚ) - (tsVal lastUserMessage : ℚ))
        else none
      | none => none
    else none
  else none

/-- All response-time deltas recorded while replaying a trace, in
append order. -/
def traceDeltas (s : AgentState) : List (Message × Nat) → List ℚ
  | [] => []
  | (m, now) :: rest =>
      (recordedDelta s m now).toList ++ traceDeltas (addMessage s m now) rest

/-! ### Step characterisations of `addMessage` -/

lemma getMessages_addMessage (s : AgentState) (m : Message) (now : Nat) :
    getMessages (addMessage s m now) =
      getMessages s ++ [{ m with timestamp := some now }] := rfl

lemma getAnalytics_addMessage_user (s : AgentState) (m : Message) (now : Nat)
    (h : m.role = Role.user) :
    getAnalytics (addMessage s m now) =
      (let a := getAnalytics s
       let a := { a with totalMessages := a.totalMessages + 1,
                         userMessages := a.userMessages + 1,
                         lastMessageTime := some now }
       if truthyTs a.firstMessageTime then a
       else { a with firstMessageTime := some now }) := by
  simp only [addMessage, updateAnalytics, getAnalytics, h]
  rfl

lemma getAnalytics_addMessage_system (s : AgentState) (m : Message) (now : Nat)
    (h : m.role = Role.system) :
    getAnalytics (addMessage s m now) =
      { getAnalytics s with totalMessages := (getAnalytics s).totalMessages + 1 } := by
  simp only [addMessage, updateAnalytics, getAnalytics, h]
  rfl

lemma getAnalytics_addMessage_assistant (s : AgentState) (m : Message) (now : Nat)
    (h : m.role = Role.assistant) :
    getAnalytics (addMessage s m now) =
      (let a := getAnalytics s
       let a := { a with totalMessages := a.totalMessages + 1,
                         assistantMessages := a.assistantMessages + 1 }
       match (getMessages s).reverse.find? (fun x => x.role == Role.user) with
       | some u =>
         if truthyTs u.timestamp && truthyTs (some now) then
           { a with averageResponseTime :=
               (a.averageResponseTime * ((a.assistantMessages : ℚ) - 1)
                 + ((now : ℚ) - (tsVal u : ℚ))) / (a.assistantMessages : ℚ) }
         else a
       | none => a) := by
  rcases hms : s.messagesStored.getD [] with _ | ⟨x, xs⟩ <;>
    simp [addMessage, updateAnalytics, getAnalytics, getMessages, h, hms, List.reverse_append,
      List.find?_cons_of_neg, tsVal, truthyTs]

lemma recordedDelta_not_assistant (s : AgentState) (m : Message) (now : Nat)
    (h : m.role ≠ Role.assistant) : recordedDelta s m now = none := by
  simp [recordedDelta, h]

lemma recordedDelta_assistant (s : AgentState) (m : Message) (now : Nat)
    (h : m.role = Role.assistant) :
    recordedDelta s m now =
      (match (getMessages s).reverse.find? (fun x => x.role == Role.user) with
       | some u =>
         if truthyTs u.timestamp && truthyTs (some now) then
           some ((now : ℚ) - (tsVal u : ℚ))
         else none
       | none => none) := by
  rcases hms : s.messagesStored.getD [] with _ | ⟨x, xs⟩ <;>
    simp [recordedDelta, getMessages, h, hms, List.reverse_append,
      List.find?_cons_of_neg, tsVal, truthyTs]

lemma counters_addMessage (s : AgentState) (m : Message) (now : Nat) :
    (getAnalytics (addMessage s m now)).totalMessages
        = (getAnalytics s).totalMessages + 1 ∧
      (getAnalytics (addMessage s m now)).userMessages
        = (getAnalytics s).userMessages + (if m.role = Role.user then 1 else 0) ∧
      (getAnalytics (addMessage s m now)).assistantMessages
        = (getAnalytics s).assistantMessages + (if m.role = Role.assistant then 1 else 0) := by
  rcases hr : m.role with _ | _ | _
  · rw [getAnalytics_addMessage_user s m now hr]
    simp only [hr]
    split <;> simp
  · rw [getAnalytics_addMessage_assistant s m now hr]
    simp only [hr]
    rcases hfind : (getMessages s).reverse.find? (fun x => x.role == Role.user) with _ | u <;>
      · simp only [hfind]
        split <;> simp_all
  · rw [getAnalytics_addMessage_system s m now hr]
    simp [hr]

/-! ### Invariant infrastructure -/

/-- No stored message has the `user` role. -/
def NoUser (l : List Message) : Prop := ∀ m ∈ l, m.role ≠ Role.user

/-- Every stored message carries a positive timestamp; this holds of any
history built by `addMessage` whenever `Date.now()` is positive. -/
def GoodTs (l : List Message) : Prop :=
  ∀ m ∈ l, ∃ t, m.timestamp = some t ∧ 0 < t

/-- Induction invariant tying a session's analytics to its history. -/
def StateInv (s : AgentState) : Prop :=
  GoodTs (getMessages s) ∧
    (NoUser (getMessages s) → (getAnalytics s).averageResponseTime = 0) ∧
    ((getAnalytics s).assistantMessages = 0 →
      (getAnalytics s).averageResponseTime = 0)

lemma stateInv_initState : StateInv initState := by
  refine ⟨?_, ?_, ?_⟩ <;>
    simp [GoodTs, NoUser, getMessages, getAnalytics, initState, defaultAnalytics]

lemma step_inv (s : AgentState) (m : Message) (now : Nat) (hnow : 0 < now)
    (hs : StateInv s) :
    StateInv (addMessage s m now) ∧
      (getAnalytics (addMessage s m now)).averageResponseTime
          * ((getAnalytics (addMessage s m now)).assistantMessages : ℚ)
        = (getAnalytics s).averageResponseTime
            * ((getAnalytics s).assistantMessages : ℚ)
          + (recordedDelta s m now).getD 0 := by
  obtain ⟨hgood, hnouser, hzero⟩ := hs
  have hmsgs := getMessages_addMessage s m now
  have hgood' : GoodTs (getMessages (addMessage s m now)) := by
    rw [hmsgs]
    intro x hx
    rcases List.mem_append.1 hx with hx | hx
    · exact hgood x hx
    · simp only [List.mem_singleton] at hx
      exact ⟨now, by simp [hx], hnow⟩
  rcases hr : m.role with _ | _ | _
  case user =>
    have ha := getAnalytics_addMessage_user s m now hr
    have havg : (getAnalytics (addMessage s m now)).averageResponseTime
        = (getAnalytics s).averageResponseTime := by
      rw [ha]; dsimp only; split <;> rfl
    have haM : (getAnalytics (addMessage s m now)).assistantMessages
        = (getAnalytics s).assistantMessages := by
      rw [ha]; dsimp only; split <;> rfl
    refine ⟨⟨hgood', ?_, ?_⟩, ?_⟩
    · intro hnu
      exfalso
      refine hnu ({ m with timestamp := some now }) ?_ hr
      rw [hmsgs]; simp
    · rw [havg, haM]; exact hzero
    · rw [havg, haM, recordedDelta_not_assistant s m now (by simp [hr])]
      simp
  case system =>
    have ha := getAnalytics_addMessage_system s m now hr
    have hnu' : NoUser (getMessages (addMessage s m now)) → NoUser (getMessages s) := by
      intro hnu x hx
      exact hnu x (by rw [hmsgs]; exact List.mem_append_left _ hx)
    refine ⟨⟨hgood', ?_, ?_⟩, ?_⟩
    · intro hnu
      rw [ha]
      exact hnouser (hnu' hnu)
    · rw [ha]; exact hzero
    · rw [ha, recordedDelta_not_assistant s m now (by simp [hr])]
      simp
  case assistant =>
    have ha := getAnalytics_addMessage_assistant s m now hr
    have hd := recordedDelta_assistant s m now hr
    rcases hfind : (getMessages s).reverse.find? (fun x => x.role == Role.user)
      with _ | u
    · have hnu : NoUser (getMessages s) := by
        intro x hx hxu
        have := List.find?_eq_none.1 hfind x (List.mem_reverse.2 hx)
        simp [hxu] at this
      have havg0 : (getAnalytics s).averageResponseTime = 0 := hnouser hnu
      rw [hfind] at ha hd
      simp only at ha hd
      refine ⟨⟨hgood', ?_, ?_⟩, ?_⟩
      · intro _; rw [ha]; exact havg0
      · intro h0
        exfalso
        rw [ha] at h0
        simp at h0
      · rw [ha, hd, havg0]
        simp
    · have humem : u ∈ getMessages s :=
        List.mem_reverse.1 (List.mem_of_find?_eq_some hfind)
      have hurole : u.role = Role.user := by
        have := List.find?_some hfind
        simpa using this
      obtain ⟨t, hts, ht⟩ := hgood u humem
      have htr1 : truthyTs u.timestamp = true := by
        simp only [hts, truthyTs]
        simpa using Nat.pos_iff_ne_zero.1 ht
      have htr2 : truthyTs (some now) = true := by
        simp only [truthyTs]
        simpa using Nat.pos_iff_ne_zero.1 hnow
      rw [hfind] at ha hd
      simp only [htr1, htr2, Bool.and_self, if_pos] at ha hd
      have hAne : (((getAnalytics s).assistantMessages : ℚ) + 1) ≠ 0 := by positivity
      refine ⟨⟨hgood', ?_, ?_⟩, ?_⟩
      · intro hnu
        exfalso
        refine hnu u ?_ hurole
        rw [hmsgs]
        exact List.mem_append_left _ humem
      · intro h0
        exfalso
        rw [ha] at h0
        simp at h0
      · rw [ha, hd]
        dsimp only
        push_cast
        field_simp

lemma option_toList_sum (o : Option ℚ) : o.toList.sum = o.getD 0 := by
  rcases o with _ | d <;> simp

lemma runTrace_inv : ∀ (tr : List (Message × Nat)) (s : AgentState),
    (∀ p ∈ tr, 0 < p.2) → StateInv s →
    StateInv (runTrace s tr) ∧
      (getAnalytics (runTrace s tr)).averageResponseTime
          * ((getAnalytics (runTrace s tr)).assistantMessages : ℚ)
        = (getAnalytics s).averageResponseTime
            * ((getAnalytics s).assistantMessages : ℚ)
          + (traceDeltas s tr).sum
  | [], s, _, hs => ⟨hs, by simp [runTrace, traceDeltas]⟩
  | (m, now) :: rest, s, hpos, hs => by
    have hnow : 0 < now := hpos (m, now) (List.mem_cons_self _ _)
    obtain ⟨hs', heq⟩ := step_inv s m now hnow hs
    obtain ⟨hinv, hsum⟩ :=
      runTrace_inv rest (addMessage s m now)
        (fun p hp => hpos p (List.mem_cons_of_mem _ hp)) hs'
    refine ⟨hinv, ?_⟩
    show (getAnalytics (runTrace (addMessage s m now) rest)).averageResponseTime
        * ((getAnalytics (runTrace (addMessage s m now) rest)).assistantMessages : ℚ) = _
    rw [hsum, heq]
    show _ = _ + ((recordedDelta s m now).toList
        ++ traceDeltas (addMessage s m now) rest).sum
    rw [List.sum_append, option_toList_sum]
    ring

/-- The clock value of the first user-role message of a trace, if any. -/
def firstUserClock : List (Message × Nat) → Option Nat
  | [] => none
  | (m, now) :: rest =>
      if m.role = Role.user then some now else firstUserClock rest

lemma first_addMessage_not_user (s : AgentState) (m : Message) (now : Nat)
    (h : m.role ≠ Role.user) :
    (getAnalytics (addMessage s m now)).firstMessageTime
      = (getAnalytics s).firstMessageTime := by
  rcases hr : m.role with _ | _ | _
  · exact absurd hr h
  · rw [getAnalytics_addMessage_assistant s m now hr]
    dsimp only
    rcases hfind : (getMessages s).reverse.find? (fun x => x.role == Role.user) with _ | u
    · simp only [hfind]
    · simp only [hfind]
      split <;> rfl
  · rw [getAnalytics_addMessage_system s m now hr]

lemma first_addMessage_user_of_truthy (s : AgentState) (m : Message) (now : Nat)
    (h : m.role = Role.user) (ht : truthyTs (getAnalytics s).firstMessageTime = true) :
    (getAnalytics (addMessage s m now)).firstMessageTime
      = (getAnalytics s).firstMessageTime := by
  rw [getAnalytics_addMessage_user s m now h]
  dsimp only
  rw [if_pos ht]

lemma first_addMessage_user_of_falsy (s : AgentState) (m : Message) (now : Nat)
    (h : m.role = Role.user) (ht : ¬ truthyTs (getAnalytics s).firstMessageTime = true) :
    (getAnalytics (addMessage s m now)).firstMessageTime = some now := by
  rw [getAnalytics_addMessage_user s m now h]
  dsimp only
  rw [if_neg ht]

lemma first_stable : ∀ (tr : List (Message × Nat)) (s : AgentState),
    (∀ p ∈ tr, 0 < p.2) → ∀ t : Nat, 0 < t →
    (getAnalytics s).firstMessageTime = some t →
    (getAnalytics (runTrace s tr)).firstMessageTime = some t
  | [], _, _, _, _, h => h
  | (m, now) :: rest, s, hpos, t, ht, h => by
    have hstep : (getAnalytics (addMessage s m now)).firstMessageTime = some t := by
      by_cases hr : m.role = Role.user
      · rw [first_addMessage_user_of_truthy s m now hr ?_, h]
        rw [h]
        simp only [truthyTs]
        simpa using Nat.pos_iff_ne_zero.1 ht
      · rw [first_addMessage_not_user s m now hr, h]
    exact first_stable rest (addMessage s m now)
      (fun p hp => hpos p (List.mem_cons_of_mem _ hp)) t ht hstep

lemma first_characterise : ∀ (tr : List (Message × Nat)) (s : AgentState),
    (∀ p ∈ tr, 0 < p.2) →
    (getAnalytics s).firstMessageTime = none →
    (getAnalytics (runTrace s tr)).firstMessageTime = firstUserClock tr
  | [], _, _, h => h
  | (m, now) :: rest, s, hpos, h => by
    have hnow : 0 < now := hpos (m, now) (List.mem_cons_self _ _)
    by_cases hr : m.role = Role.user
    · have hset : (getAnalytics (addMessage s m now)).firstMessageTime = some now := by
        refine first_addMessage_user_of_falsy s m now hr ?_
        rw [h]; simp [truthyTs]
      show (getAnalytics (runTrace (addMessage s m now) rest)).firstMessageTime = _
      rw [first_stable rest (addMessage s m now)
        (fun p hp => hpos p (List.mem_cons_of_mem _ hp)) now hnow hset]
      simp [firstUserClock, hr]
    · have hkeep : (getAnalytics (addMessage s m now)).firstMessageTime = none := by
        rw [first_addMessage_not_user s m now hr, h]
      show (getAnalytics (runTrace (addMessage s m now) rest)).firstMessageTime = _
      rw [first_characterise rest (addMessage s m now)
        (fun p hp => hpos p (List.mem_cons_of_mem _ hp)) hkeep]
      simp [firstUserClock, hr]

lemma getMessages_runTrace : ∀ (tr : List (Message × Nat)) (s : AgentState),
    getMessages (runTrace s tr)
      = getMessages s ++ tr.map (fun p => { p.1 with timestamp := some p.2 })
  | [], s => by simp [runTrace]
  | (m, now) :: rest, s => by
    show getMessages (runTrace (addMessage s m now) rest) = _
    rw [getMessages_runTrace rest (addMessage s m now), getMessages_addMessage]
    simp

lemma total_inv : ∀ (tr : List (Message × Nat)) (s : AgentState),
    (∀ p ∈ tr, p.1.role ≠ Role.system) →
    (getAnalytics s).totalMessages
      = (getAnalytics s).userMessages + (getAnalytics s).assistantMessages →
    (getAnalytics (runTrace s tr)).totalMessages
      = (getAnalytics (runTrace s tr)).userMessages
        + (getAnalytics (runTrace s tr)).assistantMessages
  | [], _, _, h => h
  | (m, now) :: rest, s, hns, h => by
    obtain ⟨h1, h2, h3⟩ := counters_addMessage s m now
    refine total_inv rest (addMessage s m now)
      (fun p hp => hns p (List.mem_cons_of_mem _ hp)) ?_
    have hms : m.role ≠ Role.system := hns (m, now) (List.mem_cons_self _ _)
    rcases hr : m.role with _ | _ | _
    · rw [h1, h2, h3]; simp [hr]; omega
    · rw [h1, h2, h3]; simp [hr]; omega
    · exact absurd hr hms

lemma firstUserClock_append : ∀ (tr tr' : List (Message × Nat)),
    (∃ p ∈ tr, p.1.role = Role.user) →
    firstUserClock (tr ++ tr') = firstUserClock tr
  | [], _, h => by simp at h
  | (m, now) :: rest, tr', h => by
    by_cases hr : m.role = Role.user
    · simp [firstUserClock, hr]
    · have hrest : ∃ p ∈ rest, p.1.role = Role.user := by
        obtain ⟨p, hp, hpu⟩ := h
        rcases List.mem_cons.1 hp with rfl | hp
        · exact absurd hpu hr
        · exact ⟨p, hp, hpu⟩
      simp only [List.cons_append, firstUserClock, if_neg hr]
      exact firstUserClock_append rest tr' hrest

lemma role_beq_assistant_user : (Role.assistant == Role.user) = false := rfl

lemma role_beq_user_user : (Role.user == Role.user) = true := rfl

lemma role_beq_system_user : (Role.system == Role.user) = false := rfl

/-! ### The claims -/

/-- C1 (counterexample): the invariant `totalMessages ==
userMessages + assistantMessages` fails for a sequence of appends that
contains a `system`-role message: appending a single system message
yields `totalMessages = 1` but both sub-counters `0`. -/
theorem totalMessages_invariant_fails_on_system :
    ¬ ((getAnalytics (runTrace initState
          [({ role := Role.system, content := "sys", timestamp := none }, 5)])).totalMessages
      = (getAnalytics (runTrace initState
          [({ role := Role.system, content := "sys", timestamp := none }, 5)])).userMessages
        + (getAnalytics (runTrace initState
          [({ role := Role.system, content := "sys", timestamp := none }, 5)])).assistantMessages) := by
  decide

/-- C1 (amended): for every sequence of appends to a single session in
which every appended message has role `user` or `assistant` (no
`system` message), after each append the stored analytics satisfy
`totalMessages = userMessages + assistantMessages` (every reachable
state is `runTrace` of some such trace, so the invariant holds after
each append). -/
theorem totalMessages_eq_user_add_assistant (tr : List (Message × Nat))
    (hns : ∀ p ∈ tr, p.1.role ≠ Role.system) :
    (getAnalytics (runTrace initState tr)).totalMessages
      = (getAnalytics (runTrace initState tr)).userMessages
        + (getAnalytics (runTrace initState tr)).assistantMessages :=
  total_inv tr initState hns rfl

/-- C1 (witness): the amended invariant at a concrete user/assistant
trace. -/
theorem totalMessages_eq_user_add_assistant_witness :
    (getAnalytics (runTrace initState
        [({ role := Role.user, content := "q", timestamp := none }, 1000),
         ({ role := Role.assistant, content := "r", timestamp := none }, 1500)])).totalMessages
      = (getAnalytics (runTrace initState
          [({ role := Role.user, content := "q", timestamp := none }, 1000),
           ({ role := Role.assistant, content := "r", timestamp := none }, 1500)])).userMessages
        + (getAnalytics (runTrace initState
            [({ role := Role.user, content := "q", timestamp := none }, 1000),
             ({ role := Role.assistant, content := "r", timestamp := none }, 1500)])).assistantMessages :=
  totalMessages_eq_user_add_assistant _ (by decide)

/-- C2 (counterexample): after the appends assistant@100, user@200,
assistant@300 (positive clock throughout), `assistantMessages = 2` but
only one delta (300−200) was ever recorded, and the stored
`averageResponseTime` is `50`, not the arithmetic mean `100` of the
recorded deltas — so the average is not a mean over exactly
`assistantMessages` recorded samples. -/
theorem averageResponseTime_mean_counterexample :
    (traceDeltas initState
        [({ role := Role.assistant, content := "a", timestamp := none }, 100),
         ({ role := Role.user, content := "q", timestamp := none }, 200),
         ({ role := Role.assistant, content := "r", timestamp := none }, 300)]).length
      ≠ (getAnalytics (runTrace initState
          [({ role := Role.assistant, content := "a", timestamp := none }, 100),
           ({ role := Role.user, content := "q", timestamp := none }, 200),
           ({ role := Role.assistant, content := "r", timestamp := none }, 300)])).assistantMessages
    ∧ (getAnalytics (runTrace initState
          [({ role := Role.assistant, content := "a", timestamp := none }, 100),
           ({ role := Role.user, content := "q", timestamp := none }, 200),
           ({ role := Role.assistant, content := "r", timestamp := none }, 300)])).averageResponseTime
      ≠ (traceDeltas initState
          [({ role := Role.assistant, content := "a", timestamp := none }, 100),
           ({ role := Role.user, content := "q", timestamp := none }, 200),
           ({ role := Role.assistant, content := "r", timestamp := none }, 300)]).sum
        / ((traceDeltas initState
          [({ role := Role.assistant, content := "a", timestamp := none }, 100),
           ({ role := Role.user, content := "q", timestamp := none }, 200),
           ({ role := Role.assistant, content := "r", timestamp := none }, 300)]).length : ℚ) := by
  constructor <;>
    norm_num +decide [traceDeltas, recordedDelta, runTrace, addMessage, updateAnalytics,
      getAnalytics, getMessages, initState, defaultAnalytics, truthyTs, tsVal, List.find?,
      role_beq_assistant_user, role_beq_user_user, role_beq_system_user]

/-- C2 (amended): for every sequence of appends made under a positive
clock, the stored `averageResponseTime` equals the sum of all
(assistant − preceding user) deltas recorded at append time divided by
`assistantMessages` — the divisor counts every assistant message, so
assistant messages appended before any user message contribute a zero
sample instead of being excluded. -/
theorem averageResponseTime_eq_sum_deltas_div_assistant
    (tr : List (Message × Nat)) (hpos : ∀ p ∈ tr, 0 < p.2) :
    (getAnalytics (runTrace initState tr)).averageResponseTime
      = (traceDeltas initState tr).sum
        / ((getAnalytics (runTrace initState tr)).assistantMessages : ℚ) := by
  obtain ⟨⟨_, _, hzero⟩, hsum⟩ := runTrace_inv tr initState hpos stateInv_initState
  have h0 : (getAnalytics initState).averageResponseTime = 0 := rfl
  rw [h0, zero_mul, zero_add] at hsum
  by_cases hA : (getAnalytics (runTrace initState tr)).assistantMessages = 0
  · rw [hA] at hsum ⊢
    rw [hzero hA] at hsum ⊢
    rw [zero_mul] at hsum
    rw [← hsum]
    simp
  · rw [eq_div_iff (by exact_mod_cast hA)]
    exact hsum

/-- C2 (witness): the amended statement at a concrete user/assistant
trace with positive clocks. -/
theorem averageResponseTime_eq_sum_deltas_div_assistant_witness :
    (getAnalytics (runTrace initState
        [({ role := Role.user, content := "q", timestamp := none }, 1000),
         ({ role := Role.assistant, content := "r", timestamp := none }, 1500)])).averageResponseTime
      = (traceDeltas initState
          [({ role := Role.user, content := "q", timestamp := none }, 1000),
           ({ role := Role.assistant, content := "r", timestamp := none }, 1500)]).sum
        / ((getAnalytics (runTrace initState
            [({ role := Role.user, content := "q", timestamp := none }, 1000),
             ({ role := Role.assistant, content := "r", timestamp := none }, 1500)])).assistantMessages : ℚ) :=
  averageResponseTime_eq_sum_deltas_div_assistant _ (by decide)

/-- C3: appending user@1000 then assistant@1500 to an empty session
yields `averageResponseTime = 500` and `assistantMessages = 1`; a
further user@2000/assistant@2300 pair (delta 300) yields
`averageResponseTime = (500 + 300) / 2 = 400` and
`assistantMessages = 2`. -/
theorem averageResponseTime_concrete_pairs :
    ((getAnalytics (runTrace initState
        [({ role := Role.user, content := "q1", timestamp := none }, 1000),
         ({ role := Role.assistant, content := "r1", timestamp := none }, 1500)])).averageResponseTime
        = 500
      ∧ (getAnalytics (runTrace initState
          [({ role := Role.user, content := "q1", timestamp := none }, 1000),
           ({ role := Role.assistant, content := "r1", timestamp := none }, 1500)])).assistantMessages
        = 1)
    ∧ ((getAnalytics (runTrace initState
          [({ role := Role.user, content := "q1", timestamp := none }, 1000),
           ({ role := Role.assistant, content := "r1", timestamp := none }, 1500),
           ({ role := Role.user, content := "q2", timestamp := none }, 2000),
           ({ role := Role.assistant, content := "r2", timestamp := none }, 2300)])).averageResponseTime
          = 400
        ∧ (getAnalytics (runTrace initState
            [({ role := Role.user, content := "q1", timestamp := none }, 1000),
             ({ role := Role.assistant, content := "r1", timestamp := none }, 1500),
             ({ role := Role.user, content := "q2", timestamp := none }, 2000),
             ({ role := Role.assistant, content := "r2", timestamp := none }, 2300)])).assistantMessages
          = 2) := by
  refine ⟨⟨?_, ?_⟩, ?_, ?_⟩ <;>
    norm_num +decide [runTrace, addMessage, updateAnalytics, getAnalytics, getMessages,
      initState, defaultAnalytics, truthyTs, tsVal, List.find?,
      role_beq_assistant_user, role_beq_user_user, role_beq_system_user]

/-- C4: if a session state's stored history contains no user-role
message, appending an assistant message leaves `averageResponseTime`
at its prior value (in particular `0` on a first-ever assistant
message, since a fresh session's average is `0`). -/
theorem averageResponseTime_unchanged_of_no_user (s : AgentState)
    (m : Message) (now : Nat)
    (hnu : ∀ x ∈ getMessages s, x.role ≠ Role.user)
    (hm : m.role = Role.assistant) :
    (getAnalytics (addMessage s m now)).averageResponseTime
      = (getAnalytics s).averageResponseTime := by
  rw [getAnalytics_addMessage_assistant s m now hm]
  have hfind : (getMessages s).reverse.find? (fun x => x.role == Role.user) = none := by
    rw [List.find?_eq_none]
    intro x hx
    simpa using hnu x (List.mem_reverse.1 hx)
  simp only [hfind]

/-- C4 (witness): an assistant message appended to a fresh (empty)
session leaves the average at its prior value `0`. -/
theorem averageResponseTime_unchanged_of_no_user_witness :
    (getAnalytics (addMessage initState
        { role := Role.assistant, content := "r", timestamp := none } 5)).averageResponseTime
      = (getAnalytics initState).averageResponseTime :=
  averageResponseTime_unchanged_of_no_user initState _ 5 (by decide) rfl

/-- C5: under a positive clock (every `Date.now()` value is nonzero, as
in the source), `firstMessageTime` equals the clock value of the first
user-role append of the trace (absent when there is none), and once a
user message is present it is unchanged by any further appends. -/
theorem firstMessageTime_first_user_and_stable (tr : List (Message × Nat))
    (hpos : ∀ p ∈ tr, 0 < p.2) :
    (getAnalytics (runTrace initState tr)).firstMessageTime = firstUserClock tr
    ∧ ∀ tr' : List (Message × Nat), (∀ p ∈ tr', 0 < p.2) →
        (∃ p ∈ tr, p.1.role = Role.user) →
        (getAnalytics (runTrace initState (tr ++ tr'))).firstMessageTime
          = (getAnalytics (runTrace initState tr)).firstMessageTime := by
  have hchar := first_characterise tr initState hpos rfl
  refine ⟨hchar, ?_⟩
  intro tr' hpos' hex
  have hposall : ∀ p ∈ tr ++ tr', 0 < p.2 := by
    intro p hp
    rcases List.mem_append.1 hp with hp | hp
    · exact hpos p hp
    · exact hpos' p hp
  rw [first_characterise (tr ++ tr') initState hposall rfl, hchar,
    firstUserClock_append tr tr' hex]

/-- C5 (witness): the characterisation at a concrete trace
user@1000, assistant@1500 extended by user@2000. -/
theorem firstMessageTime_first_user_and_stable_witness :
    (getAnalytics (runTrace initState
        [({ role := Role.user, content := "q", timestamp := none }, 1000),
         ({ role := Role.assistant, content := "r", timestamp := none }, 1500)])).firstMessageTime
      = firstUserClock
          [({ role := Role.user, content := "q", timestamp := none }, 1000),
           ({ role := Role.assistant, content := "r", timestamp := none }, 1500)]
    ∧ (getAnalytics (runTrace initState
          ([({ role := Role.user, content := "q", timestamp := none }, 1000),
            ({ role := Role.assistant, content := "r", timestamp := none }, 1500)]
            ++ [({ role := Role.user, content := "q2", timestamp := none }, 2000)]))).firstMessageTime
      = (getAnalytics (runTrace initState
          [({ role := Role.user, content := "q", timestamp := none }, 1000),
           ({ role := Role.assistant, content := "r", timestamp := none }, 1500)])).firstMessageTime :=
  ⟨(firstMessageTime_first_user_and_stable _ (by decide)).1,
   (firstMessageTime_first_user_and_stable _ (by decide)).2 _ (by decide) (by decide)⟩

/-- C6: after any sequence of appends, `clearMessages` leaves an empty
stored history and the zeroed analytics: all counters and the average
are `0` and both optional instants are unset. -/
theorem clear_resets_history_and_analytics (tr : List (Message × Nat)) :
    getMessages (clearMessages (runTrace initState tr)) = []
    ∧ getAnalytics (clearMessages (runTrace initState tr)) = defaultAnalytics
    ∧ (getAnalytics (clearMessages (runTrace initState tr))).totalMessages = 0
    ∧ (getAnalytics (clearMessages (runTrace initState tr))).userMessages = 0
    ∧ (getAnalytics (clearMessages (runTrace initState tr))).assistantMessages = 0
    ∧ (getAnalytics (clearMessages (runTrace initState tr))).averageResponseTime = 0
    ∧ (getAnalytics (clearMessages (runTrace initState tr))).firstMessageTime = none
    ∧ (getAnalytics (clearMessages (runTrace initState tr))).lastMessageTime = none :=
  ⟨rfl, rfl, rfl, rfl, rfl, rfl, rfl, rfl⟩

/-- C7: `addMessage` assigns the stored timestamp from the clock at
append time, overriding any caller-supplied timestamp (the stored
history is exactly the submitted messages with their timestamps
replaced by the clock values); hence when the clock is non-decreasing
the stored timestamps are non-decreasing in append order. -/
theorem timestamps_assigned_by_ledger_monotone (tr : List (Message × Nat))
    (hc : List.Chain' (· ≤ ·) (tr.map Prod.snd)) :
    getMessages (runTrace initState tr)
        = tr.map (fun p => { p.1 with timestamp := some p.2 })
    ∧ List.Chain' (· ≤ ·) ((getMessages (runTrace initState tr)).map tsVal) := by
  have hmsgs : getMessages (runTrace initState tr)
      = tr.map (fun p => { p.1 with timestamp := some p.2 }) := by
    rw [getMessages_runTrace]
    rfl
  refine ⟨hmsgs, ?_⟩
  rw [hmsgs, List.map_map]
  have hfun : (tsVal ∘ fun p : Message × Nat => { p.1 with timestamp := some p.2 })
      = Prod.snd := by
    funext p
    rfl
  rw [hfun]
  exact hc

/-- C7 (witness): a concrete trace whose caller supplies bogus
timestamps 999 and 1; the ledger stores the clock values 10 and 20,
which are non-decreasing. -/
theorem timestamps_assigned_by_ledger_monotone_witness :
    getMessages (runTrace initState
        [({ role := Role.user, content := "q", timestamp := some 999 }, 10),
         ({ role := Role.assistant, content := "r", timestamp := some 1 }, 20)])
        = [{ role := Role.user, content := "q", timestamp := some 10 },
           { role := Role.assistant, content := "r", timestamp := some 20 }]
    ∧ List.Chain' (· ≤ ·) ((getMessages (runTrace initState
        [({ role := Role.user, content := "q", timestamp := some 999 }, 10),
         ({ role := Role.assistant, content := "r", timestamp := some 1 }, 20)])).map tsVal) :=
  ⟨(timestamps_assigned_by_ledger_monotone _
      (by norm_num [List.chain'_cons, List.chain'_singleton])).1,
   (timestamps_assigned_by_ledger_monotone _
      (by norm_num [List.chain'_cons, List.chain'_singleton])).2⟩

/-- C8: a session identifier never accessed before (no stored state)
yields the empty history from `getMessages` and the zeroed default
analytics from `getAnalytics` — a value, not an error. -/
theorem fresh_session_defaults :
    getMessages initState = []
    ∧ getAnalytics initState = defaultAnalytics
    ∧ (getAnalytics initState).totalMessages = 0
    ∧ (getAnalytics initState).userMessages = 0
    ∧ (getAnalytics initState).assistantMessages = 0
    ∧ (getAnalytics initState).averageResponseTime = 0
    ∧ (getAnalytics initState).firstMessageTime = none
    ∧ (getAnalytics initState).lastMessageTime = none :=
  ⟨rfl, rfl, rfl, rfl, rfl, rfl, rfl, rfl⟩

/-- C10: `clearMessages` is idempotent and its result is independent
of the prior state: clearing twice equals clearing once, any two
states clear to the same stored state, and that state is the empty
history with the zeroed analytics. -/
theorem clearMessages_idempotent_and_constant (s t : AgentState) :
    clearMessages (clearMessages s) = clearMessages s
    ∧ clearMessages s = clearMessages t
    ∧ getMessages (clearMessages s) = []
    ∧ getAnalytics (clearMessages s) = defaultAnalytics :=
  ⟨rfl, rfl, rfl, rfl⟩

end CFWorkers
